import Mathlib

/-!
Verification development for the purchase-order orchestration repository.

The definitions below are a shallow embedding of the repository's core:

* `src/mcp_server/data_store.py` — the in-memory business data layer
  (`DataStore`): product search with the fixed synonym table, product
  details with optional supplier filtering, department budget computation,
  and the append-only audit log.
* `src/mcp_server/main.py` — the MCP tool surface wrapping the data layer
  (`get_product_details` raising a not-found error on an empty offer list).
* `src/ai_agents/azure_ai_agent.py` — the orchestrator
  (`AzureAIFoundryAgent.process_purchase_request`), embedded as a total
  function over an environment recording the outcome of every external
  call (Azure client setup, agent/thread/message creation, run execution,
  message listing, agent deletion), which also counts the number of times
  the context-release operation `delete_agent` is invoked.

Python dictionaries keyed by id are modelled as association lists
(`List (String × _)` with `List.lookup`); money amounts are modelled as
`Int`; wall-clock timestamps are passed in as explicit `Nat` parameters.
-/

/-- Product entity in the catalog (models.business.Product). -/
structure Product where
  product_id : String
  name : String
  description : String
  category : String
deriving DecidableEq, Repr

/-- Product details from a specific supplier (models.business.ProductDetails). -/
structure ProductDetails where
  product_id : String
  supplier_id : String
  price : Int
  availability : String
  delivery_days : Nat
  minimum_order : Nat
deriving DecidableEq, Repr

/-- Purchase strategy enum (models.business.PurchaseStrategy). -/
inductive PurchaseStrategy where
  | cheapest
  | fastest
  | complex
deriving DecidableEq, Repr

/-- Department entity with purchasing policies (models.business.Department). -/
structure Department where
  department_id : String
  name : String
  allowed_categories : List String
  purchase_strategy : PurchaseStrategy
  monthly_budget : Int
  requires_audit : Bool
deriving DecidableEq, Repr

/-- Current budget information for a department (models.business.DepartmentBudget). -/
structure DepartmentBudget where
  department_id : String
  monthly_budget : Int
  spent_this_month : Int
  remaining_budget : Int
  last_updated : Nat
deriving DecidableEq, Repr

/-- Audit record for purchase decisions (models.business.AuditRecord). -/
structure AuditRecord where
  timestamp : Nat
  user_id : String
  action : String
  details : List (String × String)
  decision_reasoning : Option String
deriving DecidableEq, Repr

/-- Python substring containment on character lists: first argument is a
prefix of the second. Mirrors the prefix test underlying the `in` operator. -/
def charsStartWith : List Char → List Char → Bool
  | [], _ => true
  | _ :: _, [] => false
  | a :: xs, b :: ys => a == b && charsStartWith xs ys

/-- Python substring containment on character lists: the needle occurs
contiguously somewhere in the haystack. -/
def charsContain : List Char → List Char → Bool
  | needle, [] => charsStartWith needle []
  | needle, c :: rest => charsStartWith needle (c :: rest) || charsContain needle rest

/-- Model of the Python expression `needle in hay` on strings. -/
def pyIn (needle hay : String) : Bool :=
  charsContain needle.data hay.data

/-- Model of Python str.lower (character-wise lowercasing; agrees with the
Python method on the ASCII data of this repository). -/
def pyLower (s : String) : String := String.mk (s.data.map Char.toLower)

/-- Membership test of data_store.search_products: the lowercased search
term occurs in the lowercased name or the lowercased description. -/
def productMatches (term : String) (p : Product) : Bool :=
  pyIn term (pyLower p.name) || pyIn term (pyLower p.description)

/-- The fixed synonym table equivalent_mappings of data_store.search_products. -/
def equivalentMappings : List (String × List String) :=
  [("computer", ["laptop", "pc", "workstation"]),
   ("chair", ["chair", "seat"]),
   ("printer paper", ["notebook", "paper"]),
   ("paper", ["notebook", "paper"])]

/-- DataStore.search_products from data_store.py, translated loop for loop:
a primary pass appending every product whose lowercased name or description
contains the lowercased term, then, when the term is a key of the synonym
table, a second pass over each synonym word appending products not already
in the result list (the Python membership test `product not in results`,
which on pydantic models is structural value equality). -/
def DataStore.search_products (catalog : List Product) (name : String) : List Product :=
  let searchTerm := pyLower name
  let results :=
    catalog.foldl
      (fun acc p => if productMatches searchTerm p then acc ++ [p] else acc) []
  match equivalentMappings.lookup searchTerm with
  | some terms =>
      terms.foldl
        (fun acc term =>
          catalog.foldl
            (fun acc2 p =>
              if productMatches term p ∧ p ∉ acc2 then acc2 ++ [p] else acc2)
            acc)
        results
  | none => results

/-- DataStore.get_product_details from data_store.py: look the product up in
the details mapping (defaulting to the empty list), then filter by supplier
only when the supplier_id argument is truthy in the Python sense, that is,
present and a non-empty string. -/
def DataStore.get_product_details (store : List (String × List ProductDetails))
    (product_id : String) (supplier_id : Option String) : List ProductDetails :=
  let details := (store.lookup product_id).getD []
  match supplier_id with
  | some sid =>
      if sid.isEmpty then details
      else details.filter (fun d => d.supplier_id == sid)
  | none => details

/-- DataStore.get_department from data_store.py. -/
def DataStore.get_department (departments : List (String × Department))
    (department_id : String) : Option Department :=
  departments.lookup department_id

/-- DataStore.get_department_budget from data_store.py: none when the
department is unknown; otherwise a budget record whose spent amount is the
fixed placeholder 2500 and whose remaining budget is the exact difference
monthly_budget minus spent, with the read-time clock value as last_updated. -/
def DataStore.get_department_budget (now : Nat)
    (departments : List (String × Department)) (department_id : String) :
    Option DepartmentBudget :=
  match DataStore.get_department departments department_id with
  | none => none
  | some department =>
      let spent_this_month : Int := 2500
      let remaining := department.monthly_budget - spent_this_month
      some ⟨department_id, department.monthly_budget, spent_this_month,
            remaining, now⟩

/-- DataStore.create_audit_record from data_store.py: build a record stamped
with the current time, append it to the log, and return both the new log and
the stored record. -/
def DataStore.create_audit_record (now : Nat) (log : List AuditRecord)
    (user_id action : String) (details : List (String × String))
    (decision_reasoning : Option String) : List AuditRecord × AuditRecord :=
  let record : AuditRecord := ⟨now, user_id, action, details, decision_reasoning⟩
  (log ++ [record], record)

/-- The MCP tool layer get_product_details from main.py: delegates to the
data store and raises a ValueError (modelled as Except.error) exactly when
the resulting list is empty. -/
def McpServer.get_product_details (store : List (String × List ProductDetails))
    (product_id : String) (supplier_id : Option String) :
    Except String (List ProductDetails) :=
  let details := DataStore.get_product_details store product_id supplier_id
  if details.isEmpty then
    Except.error ("No product details found for product " ++ product_id)
  else
    Except.ok details

/-- One step of the agent execution trail (azure_ai_agent.AgentStep).
The wall-clock timestamp field of the dataclass is omitted; within
process_purchase_request every step is created with no tool fields set. -/
structure AgentStep where
  step_number : Nat
  action : String
  reasoning : String
  mcp_tool_called : Option String
  mcp_tool_params : Option (List (String × String))
  mcp_result : Option String
deriving DecidableEq, Repr

/-- Final result from the agent (azure_ai_agent.AgentResult); elapsed time
is modelled as a Nat supplied by the environment clock. -/
structure AgentResult where
  success : Bool
  recommendation : String
  reasoning : String
  total_steps : Nat
  execution_time_seconds : Nat
  steps : List AgentStep
  error_message : Option String
deriving DecidableEq, Repr

/-- One content item of a thread message: has_text models the Python test
that the item has a truthy text attribute, text_value its text.value. -/
structure MessageContent where
  has_text : Bool
  text_value : String
deriving DecidableEq, Repr

/-- A message of the conversation thread as listed after the run. -/
structure ThreadMessage where
  role : String
  content : List MessageContent
deriving DecidableEq, Repr

/-- Environment of one run of process_purchase_request: the outcome of every
call to the external Azure collaborator. A `_fails` flag set means that call
raises, with the paired string as the exception text. Failures of the
emergency cleanup deletion are swallowed by the code with no effect on the
returned result or on the number of delete invocations, so they need no
flag. -/
structure Env where
  setup_client_fails : Bool
  setup_client_error : String
  create_agent_fails : Bool
  create_agent_error : String
  create_thread_fails : Bool
  create_thread_error : String
  create_message_fails : Bool
  create_message_error : String
  run_create_fails : Bool
  run_create_error : String
  run_status_failed : Bool
  run_last_error : String
  list_messages_fails : Bool
  list_messages_error : String
  messages : List ThreadMessage
  delete_fails : Bool
  elapsed : Nat
deriving Repr

/-- The benign environment: every external call succeeds and the thread has
no messages. -/
def envBase : Env :=
  ⟨false, "", false, "", false, "", false, "", false, "", false, "",
   false, "", [], false, 0⟩

/-- Extraction of the recommendation from the listed messages, mirroring the
scan in process_purchase_request: find the first assistant message with a
non-empty content list, take the text value of its first content item that
has text, and stop scanning after that message even when it held no text;
default to the no-response sentinel. -/
def extractRecommendation : List ThreadMessage → String
  | [] => "No response from agent"
  | m :: rest =>
      if m.role == "assistant" && !m.content.isEmpty then
        match m.content.find? (fun c => c.has_text) with
        | some c => c.text_value
        | none => "No response from agent"
      else
        extractRecommendation rest

/-- Run state of the orchestrator: the execution_steps list and the
step_counter of the AzureAIFoundryAgent instance, reset at the start of
each run. -/
def RunState : Type := List AgentStep × Nat

/-- AzureAIFoundryAgent._add_step: increment the counter and append a step
carrying the new counter value; tool fields are not passed at any call site
inside process_purchase_request. -/
def addStep (st : RunState) (action reasoning : String) : RunState :=
  (st.1 ++ [⟨st.2 + 1, action, reasoning, none, none, none⟩], st.2 + 1)

/-- Body of the inner try block of process_purchase_request (thread
creation, initial message, run execution, status check, message listing and
response extraction), returning the run state together with either the
extracted recommendation or the text of the exception that escaped. -/
def innerBody (env : Env) (st : RunState) : RunState × Except String String :=
  if env.create_thread_fails then (st, Except.error env.create_thread_error)
  else if env.create_message_fails then (st, Except.error env.create_message_error)
  else
    let st1 := addStep st "Create Conversation Thread"
      "Started conversation thread with user request"
    if env.run_create_fails then (st1, Except.error env.run_create_error)
    else
      let statusText := if env.run_status_failed then "failed" else "completed"
      let st2 := addStep st1 "Execute Agent Run"
        ("Agent completed with status: " ++ statusText)
      if env.run_status_failed then
        (st2, Except.error ("Agent run failed: " ++ env.run_last_error))
      else if env.list_messages_fails then
        (st2, Except.error env.list_messages_error)
      else
        let recommendation := extractRecommendation env.messages
        let st3 := addStep st2 "Get Agent Response"
          "Retrieved final recommendation from agent"
        (st3, Except.ok recommendation)

/-- The success-path AgentResult of process_purchase_request. -/
def mkSuccess (env : Env) (st : RunState) (recommendation : String) : AgentResult :=
  ⟨true, recommendation,
   "Azure AI Foundry Agent completed purchase request analysis using native MCP tools",
   st.1.length, env.elapsed, st.1, none⟩

/-- The failure-path AgentResult of process_purchase_request: the except
clause wraps the exception text with a fixed prefix and stores it both as
the reasoning and as the error_message. -/
def mkFailure (env : Env) (st : RunState) (e : String) : AgentResult :=
  let msg := "Unexpected error during processing: " ++ e
  ⟨false, "Failed to process request due to unexpected error", msg,
   st.1.length, env.elapsed, st.1, some msg⟩

/-- The part of process_purchase_request that runs once the agent exists:
the inner try block, the try/finally cleanup deleting the agent (its own
failure swallowed, so no cleanup step is recorded then), and the two exits.
On the normal exit delete_agent was invoked once; when the inner body
raised, the emergency cleanup of the outer except clause invokes
delete_agent a second time, since the client and the agent object are still
set; a failure of the emergency deletion itself is swallowed with no
further effect. The second component counts the delete_agent invocations. -/
def afterAgentCreated (env : Env) (st3 : RunState) : AgentResult × Nat :=
  let r := innerBody env st3
  let st4 := if env.delete_fails then r.1
    else addStep r.1 "Clean Up Agent" "Deleted temporary agent instance"
  match r.2 with
  | Except.ok recommendation => (mkSuccess env st4 recommendation, 1)
  | Except.error e => (mkFailure env st4 e, 2)

/-- AzureAIFoundryAgent.process_purchase_request, as a total function of the
environment and the user inputs. The second component counts the
invocations of the context-release operation delete_agent; it is zero when
the run fails before the agent was created. The user inputs only flow into
the thread message and the logs, so they do not affect the modelled
observables. -/
def process_purchase_request (env : Env) (_user_id _product_request : String) :
    AgentResult × Nat :=
  let st0 : RunState := ([], 0)
  if env.setup_client_fails then
    (mkFailure env st0 env.setup_client_error, 0)
  else
    let st1 := addStep st0 "Initialize Azure AI Foundry Client"
      "Setting up connection to Azure AI Foundry Agent Service"
    let st2 := addStep st1 "Create MCP Tool"
      "Setup native MCP integration for business data access"
    if env.create_agent_fails then
      (mkFailure env st2 env.create_agent_error, 0)
    else
      let st3 := addStep st2 "Create Azure AI Foundry Agent"
        "Created agent with native MCP tool support"
      afterAgentCreated env st3

/-- Products newly discovered by one synonym-word scan of the catalog:
those matching the word and not already seen, each added to the seen set as
it is discovered (spec section 4.1, equivalence pass for a single word). -/
def newMatches (w : String) (seen : List Product) : List Product → List Product
  | [] => []
  | p :: rest =>
      if productMatches w p ∧ p ∉ seen then p :: newMatches w (seen ++ [p]) rest
      else newMatches w seen rest

/-- Products added by the whole equivalence pass, scanning the catalog once
per synonym word in order, with duplicate suppression against everything
already in the result. -/
def equivAdds (catalog : List Product) : List String → List Product → List Product
  | [], _ => []
  | w :: ws, seen =>
      let adds := newMatches w seen catalog
      adds ++ equivAdds catalog ws (seen ++ adds)

/-- The four fixed synonym keys named by the specification. -/
def synonymKeys : List String := ["computer", "chair", "printer paper", "paper"]

/-- The synonym words of each fixed key, as the specification lists them. -/
def synonymsOf (t : String) : List String :=
  if t = "computer" then ["laptop", "pc", "workstation"]
  else if t = "chair" then ["chair", "seat"]
  else if t = "printer paper" then ["notebook", "paper"]
  else if t = "paper" then ["notebook", "paper"]
  else []

/-- The search result as the specification words it: first every product
whose lowercased name or description contains the lowercased term, in
catalog order; then, only when the lowercased term exactly equals one of the
four fixed synonym keys, the products matched by the synonym words of that
key and not already in the result, in discovery order. -/
def searchProductsSpec (catalog : List Product) (name : String) : List Product :=
  let t := pyLower name
  let primary := catalog.filter (productMatches t)
  if t ∈ synonymKeys then primary ++ equivAdds catalog (synonymsOf t) primary
  else primary

/-- A catalog product matched by the synonym word laptop but not by the
term computer itself. -/
def laptopProduct : Product :=
  ⟨"LAPTOP-001", "Business Laptop", "Portable machine for office work",
   "electronics"⟩

/-- A single offer of product P1 by supplier SUP-1. -/
def offerSup1 : ProductDetails := ⟨"P1", "SUP-1", 100, "in_stock", 3, 1⟩

/-- A details store holding exactly that offer. -/
def detailsStoreOne : List (String × List ProductDetails) := [("P1", [offerSup1])]

/-- The IT department of the demo data, with a monthly budget above the
placeholder spent amount. -/
def itDepartment : Department :=
  ⟨"IT", "Information Technology", ["electronics"], PurchaseStrategy.cheapest,
   5000, false⟩

/-- A department whose monthly budget is below the placeholder spent
amount, so its remaining budget is negative. -/
def financeDepartment : Department :=
  ⟨"FIN", "Finance", ["software"], PurchaseStrategy.fastest, 1000, true⟩

/-- A department store holding both demo departments. -/
def departmentsStore : List (String × Department) :=
  [("IT", itDepartment), ("FIN", financeDepartment)]

/-- The budget record computed for the IT department at clock value 0. -/
def itBudget : DepartmentBudget := ⟨"IT", 5000, 2500, 2500, 0⟩

/-- Arguments of one audit call: the clock value at call time and the four
supplied fields. -/
structure AuditCall where
  now : Nat
  user_id : String
  action : String
  details : List (String × String)
  decision_reasoning : Option String

/-- The record that one audit call stores. -/
def auditRecordOf (c : AuditCall) : AuditRecord :=
  ⟨c.now, c.user_id, c.action, c.details, c.decision_reasoning⟩

/-- A sequence of audit calls applied to a starting log, each call
appending through DataStore.create_audit_record. -/
def applyAuditCalls (log : List AuditRecord) (calls : List AuditCall) :
    List AuditRecord :=
  calls.foldl
    (fun l c =>
      (DataStore.create_audit_record c.now l c.user_id c.action c.details
        c.decision_reasoning).1)
    log

/-- The environment of a run whose agent execution reports failed status. -/
def envRunFailed : Env :=
  { envBase with run_status_failed := true, run_last_error := "rate limited" }

/-- The environment of a run in which only the cleanup deletion fails. -/
def envDeleteFails : Env := { envBase with delete_fails := true }

/-- The environment of a run in which thread creation fails. -/
def envThreadFails : Env :=
  { envBase with create_thread_fails := true,
                 create_thread_error := "connection reset" }

/-- Steps carry consecutive step numbers counting up from n. -/
def numberedFrom : Nat → List AgentStep → Bool
  | _, [] => true
  | n, s :: rest => (s.step_number == n) && numberedFrom (n + 1) rest

/-- Invariant of the run state: the steps are numbered 1..k and the counter
equals the number of steps. -/
def StateInv (st : RunState) : Prop :=
  numberedFrom 1 st.1 = true ∧ st.2 = st.1.length

/-- Some step of the run pipeline before the cleanup fails: client setup,
agent creation, thread creation, initial message, run creation, run status,
or message listing. -/
def runStepFails (env : Env) : Prop :=
  env.setup_client_fails = true ∨ env.create_agent_fails = true ∨
    env.create_thread_fails = true ∨ env.create_message_fails = true ∨
    env.run_create_fails = true ∨ env.run_status_failed = true ∨
    env.list_messages_fails = true

/-- Some step of the inner try block fails. -/
def innerFails (env : Env) : Prop :=
  env.create_thread_fails = true ∨ env.create_message_fails = true ∨
    env.run_create_fails = true ∨ env.run_status_failed = true ∨
    env.list_messages_fails = true

lemma foldl_filter_eq (f : Product → Bool) :
    ∀ (l acc : List Product),
      l.foldl (fun a p => if f p then a ++ [p] else a) acc = acc ++ l.filter f := by
  intro l
  induction l with
  | nil => intro acc; simp
  | cons p rest ih =>
      intro acc
      by_cases h : f p
      · simp [List.foldl_cons, h, ih, List.filter_cons]
      · simp [List.foldl_cons, h, ih, List.filter_cons]

lemma foldl_dedup_eq (w : String) :
    ∀ (l seen : List Product),
      l.foldl (fun a p => if productMatches w p ∧ p ∉ a then a ++ [p] else a) seen
        = seen ++ newMatches w seen l := by
  intro l
  induction l with
  | nil => intro seen; simp [newMatches]
  | cons p rest ih =>
      intro seen
      by_cases h : productMatches w p ∧ p ∉ seen
      · rw [List.foldl_cons, if_pos h, ih (seen ++ [p])]
        rw [show newMatches w seen (p :: rest) = p :: newMatches w (seen ++ [p]) rest
              from by rw [newMatches, if_pos h]]
        simp
      · rw [List.foldl_cons, if_neg h, ih seen]
        rw [show newMatches w seen (p :: rest) = newMatches w seen rest
              from by rw [newMatches, if_neg h]]

lemma foldl_words_eq :
    ∀ (ws : List String) (catalog seen : List Product),
      ws.foldl
        (fun a w =>
          catalog.foldl
            (fun a2 p => if productMatches w p ∧ p ∉ a2 then a2 ++ [p] else a2) a)
        seen
        = seen ++ equivAdds catalog ws seen := by
  intro ws
  induction ws with
  | nil => intro catalog seen; simp [equivAdds]
  | cons w ws ih =>
      intro catalog seen
      rw [List.foldl_cons, foldl_dedup_eq, ih]
      simp [equivAdds]

lemma lookup_equivalentMappings (t : String) :
    equivalentMappings.lookup t =
      if t ∈ synonymKeys then some (synonymsOf t) else none := by
  by_cases h1 : t = "computer"
  · subst h1; rfl
  · by_cases h2 : t = "chair"
    · subst h2; rfl
    · by_cases h3 : t = "printer paper"
      · subst h3; rfl
      · by_cases h4 : t = "paper"
        · subst h4; rfl
        · have e1 : (t == "computer") = false := beq_eq_false_iff_ne.mpr h1
          have e2 : (t == "chair") = false := beq_eq_false_iff_ne.mpr h2
          have e3 : (t == "printer paper") = false := beq_eq_false_iff_ne.mpr h3
          have e4 : (t == "paper") = false := beq_eq_false_iff_ne.mpr h4
          simp [equivalentMappings, List.lookup, e1, e2, e3, e4, synonymKeys,
                h1, h2, h3, h4]

/-- C3: search_products performs exactly the two-pass scan the specification
describes: every product whose lowercased name or description contains the
lowercased term, in catalog order, followed, exactly when the lowercased
term equals one of the four fixed synonym keys, by the products matched by
that key's synonym words and not already in the result, in discovery order;
no relevance ranking is applied to either part. -/
theorem search_products_two_pass (catalog : List Product) (name : String) :
    DataStore.search_products catalog name = searchProductsSpec catalog name := by
  simp only [DataStore.search_products, searchProductsSpec]
  rw [lookup_equivalentMappings]
  by_cases h : pyLower name ∈ synonymKeys
  · rw [if_pos h, if_pos h]
    simp only [foldl_filter_eq, List.nil_append, foldl_words_eq]
  · rw [if_neg h, if_neg h]
    simp only [foldl_filter_eq, List.nil_append]

lemma search_eq_spec (catalog : List Product) (name : String) :
    DataStore.search_products catalog name = searchProductsSpec catalog name := by
  simp only [DataStore.search_products, searchProductsSpec]
  rw [lookup_equivalentMappings]
  by_cases h : pyLower name ∈ synonymKeys
  · rw [if_pos h, if_pos h]
    simp only [foldl_filter_eq, List.nil_append, foldl_words_eq]
  · rw [if_neg h, if_neg h]
    simp only [foldl_filter_eq, List.nil_append]

lemma newMatches_not_mem_of_mem (w : String) (p : Product) :
    ∀ (l seen : List Product), p ∈ seen → p ∉ newMatches w seen l := by
  intro l
  induction l with
  | nil => intro seen _ hc; simp [newMatches] at hc
  | cons q rest ih =>
      intro seen hp
      by_cases h : productMatches w q ∧ q ∉ seen
      · rw [show newMatches w seen (q :: rest) = q :: newMatches w (seen ++ [q]) rest
              from by rw [newMatches, if_pos h]]
        intro hc
        rcases List.mem_cons.mp hc with hc | hc
        · exact h.2 (hc ▸ hp)
        · exact ih (seen ++ [q]) (List.mem_append_left _ hp) hc
      · rw [show newMatches w seen (q :: rest) = newMatches w seen rest
              from by rw [newMatches, if_neg h]]
        exact ih seen hp

lemma newMatches_count_le_one (w : String) (p : Product) :
    ∀ (l seen : List Product), (newMatches w seen l).count p ≤ 1 := by
  intro l
  induction l with
  | nil => intro seen; simp [newMatches]
  | cons q rest ih =>
      intro seen
      by_cases h : productMatches w q ∧ q ∉ seen
      · rw [show newMatches w seen (q :: rest) = q :: newMatches w (seen ++ [q]) rest
              from by rw [newMatches, if_pos h]]
        by_cases hpq : p = q
        · subst hpq
          have hnm : p ∉ newMatches w (seen ++ [p]) rest :=
            newMatches_not_mem_of_mem w p rest (seen ++ [p])
              (List.mem_append_right _ (List.mem_singleton.mpr rfl))
          simp [List.count_cons, List.count_eq_zero.mpr hnm]
        · simpa [List.count_cons, hpq] using ih (seen ++ [q])
      · rw [show newMatches w seen (q :: rest) = newMatches w seen rest
              from by rw [newMatches, if_neg h]]
        exact ih seen

lemma equivAdds_not_mem_of_mem (p : Product) :
    ∀ (ws : List String) (catalog seen : List Product),
      p ∈ seen → p ∉ equivAdds catalog ws seen := by
  intro ws
  induction ws with
  | nil => intro catalog seen _ hc; simp [equivAdds] at hc
  | cons w ws ih =>
      intro catalog seen hp hc
      simp only [equivAdds, List.mem_append] at hc
      rcases hc with hc | hc
      · exact newMatches_not_mem_of_mem w p catalog seen hp hc
      · exact ih catalog (seen ++ newMatches w seen catalog)
          (List.mem_append_left _ hp) hc

lemma equivAdds_count_le_one (p : Product) :
    ∀ (ws : List String) (catalog seen : List Product),
      (equivAdds catalog ws seen).count p ≤ 1 := by
  intro ws
  induction ws with
  | nil => intro catalog seen; simp [equivAdds]
  | cons w ws ih =>
      intro catalog seen
      simp only [equivAdds, List.count_append]
      by_cases hp : p ∈ seen
      · have h1 : (newMatches w seen catalog).count p = 0 :=
          List.count_eq_zero.mpr (newMatches_not_mem_of_mem w p catalog seen hp)
        have h2 : (equivAdds catalog ws (seen ++ newMatches w seen catalog)).count p = 0 :=
          List.count_eq_zero.mpr
            (equivAdds_not_mem_of_mem p ws catalog _ (List.mem_append_left _ hp))
        simp [h1, h2]
      · by_cases hpa : p ∈ newMatches w seen catalog
        · have h2 : (equivAdds catalog ws (seen ++ newMatches w seen catalog)).count p = 0 :=
            List.count_eq_zero.mpr
              (equivAdds_not_mem_of_mem p ws catalog _ (List.mem_append_right _ hpa))
          simpa [h2] using newMatches_count_le_one w p catalog seen
        · have h1 : (newMatches w seen catalog).count p = 0 := List.count_eq_zero.mpr hpa
          simpa [h1] using ih catalog (seen ++ newMatches w seen catalog)

/-- C4 counterexample: duplicate suppression in search_products uses
structural content equality of the product record, not object identity. On
a catalog holding two distinct entries with identical field values, both
matched only by the equivalence pass, the second entry is suppressed
against the first, so the result holds the product once where
identity-based suppression would keep both. -/
theorem search_dedup_by_content_counterexample :
    DataStore.search_products [laptopProduct, laptopProduct] "computer"
        = [laptopProduct] ∧
      (DataStore.search_products [laptopProduct, laptopProduct] "computer").count
          laptopProduct ≠ 2 := by
  constructor
  · decide
  · decide

/-- C4 amended: for any product occurring at most once in the catalog (as
every product of the id-keyed store does), a term whose equivalence pass
rediscovers it yields a result holding it exactly once; the suppression
test is content equality of the record, which coincides with identity on
the id-keyed catalog. -/
theorem search_products_no_duplicates (name : String) (catalog : List Product)
    (p : Product) (hcat : catalog.count p ≤ 1)
    (hmem : p ∈ DataStore.search_products catalog name) :
    (DataStore.search_products catalog name).count p = 1 := by
  rw [search_eq_spec] at hmem ⊢
  simp only [searchProductsSpec] at hmem ⊢
  have hprim : (catalog.filter (productMatches (pyLower name))).count p ≤ 1 :=
    le_trans (List.Sublist.count_le (List.filter_sublist catalog) p) hcat
  by_cases h : pyLower name ∈ synonymKeys
  · rw [if_pos h] at hmem ⊢
    rw [List.count_append]
    by_cases hp : p ∈ catalog.filter (productMatches (pyLower name))
    · have hadds : (equivAdds catalog (synonymsOf (pyLower name))
          (catalog.filter (productMatches (pyLower name)))).count p = 0 :=
        List.count_eq_zero.mpr (equivAdds_not_mem_of_mem p _ catalog _ hp)
      have hpos : 0 < (catalog.filter (productMatches (pyLower name))).count p :=
        List.count_pos_iff.mpr hp
      omega
    · have hzero : (catalog.filter (productMatches (pyLower name))).count p = 0 :=
        List.count_eq_zero.mpr hp
      have hpa : p ∈ equivAdds catalog (synonymsOf (pyLower name))
          (catalog.filter (productMatches (pyLower name))) := by
        rcases List.mem_append.mp hmem with hmem | hmem
        · exact absurd hmem hp
        · exact hmem
      have hpos : 0 < (equivAdds catalog (synonymsOf (pyLower name))
          (catalog.filter (productMatches (pyLower name)))).count p :=
        List.count_pos_iff.mpr hpa
      have hle : (equivAdds catalog (synonymsOf (pyLower name))
          (catalog.filter (productMatches (pyLower name)))).count p ≤ 1 :=
        equivAdds_count_le_one p _ catalog _
      omega
  · rw [if_neg h] at hmem ⊢
    have hpos : 0 < (catalog.filter (productMatches (pyLower name))).count p :=
      List.count_pos_iff.mpr hmem
    omega

/-- Witness for the amended C4 theorem at a concrete catalog and term. -/
theorem search_products_no_duplicates_witness :
    [laptopProduct].count laptopProduct ≤ 1 ∧
      laptopProduct ∈ DataStore.search_products [laptopProduct] "computer" ∧
      (DataStore.search_products [laptopProduct] "computer").count laptopProduct = 1 :=
  ⟨by decide, by decide,
   search_products_no_duplicates "computer" [laptopProduct] laptopProduct
     (by decide) (by decide)⟩

lemma gpd_none (store : List (String × List ProductDetails)) (pid : String) :
    DataStore.get_product_details store pid none = (store.lookup pid).getD [] := rfl

lemma gpd_some_ne (store : List (String × List ProductDetails)) (pid sid : String)
    (h : sid ≠ "") :
    DataStore.get_product_details store pid (some sid)
      = ((store.lookup pid).getD []).filter (fun d => d.supplier_id == sid) := by
  have he : sid.isEmpty = false :=
    Bool.eq_false_iff.mpr (fun hc => h ((String.isEmpty_iff sid).mp hc))
  simp [DataStore.get_product_details, he]

lemma gpd_lookup_none (store : List (String × List ProductDetails)) (pid : String)
    (h : store.lookup pid = none) :
    ∀ osid : Option String, DataStore.get_product_details store pid osid = [] := by
  intro osid
  cases osid with
  | none => simp [DataStore.get_product_details, h]
  | some sid =>
      by_cases he : sid.isEmpty <;>
        simp [DataStore.get_product_details, h, he]

/-- C10: supplying the empty string as supplier_id behaves exactly like
supplying no supplier_id at all, because the Python filter condition tests
the truthiness of the argument: the full unfiltered offer list is returned,
not the empty list of matches. -/
theorem get_product_details_empty_supplier (store : List (String × List ProductDetails))
    (pid : String) :
    DataStore.get_product_details store pid (some "")
        = DataStore.get_product_details store pid none ∧
      DataStore.get_product_details store pid (some "")
        = (store.lookup pid).getD [] := by
  constructor <;> rfl

/-- C5 counterexample: with supplier_id supplied as the empty string the
store returns the full offer list, not the subsequence of offers whose
supplier_id equals the given value, which would be empty here. -/
theorem get_product_details_empty_filter_counterexample :
    DataStore.get_product_details detailsStoreOne "P1" (some "") = [offerSup1] ∧
      [offerSup1].filter (fun d => d.supplier_id == "") = [] := by
  constructor <;> decide

/-- C5 amended: get_product_details always returns a list, the empty list
rather than a failure when the product has no offers, and for a supplied
NON-EMPTY supplier_id the result is exactly the subsequence of the offers
of the product whose supplier_id equals the given value; the empty string
is treated as no filter. -/
theorem get_product_details_filter (store : List (String × List ProductDetails))
    (pid : String) :
    DataStore.get_product_details store pid none = (store.lookup pid).getD [] ∧
      (∀ sid : String, sid ≠ "" →
        DataStore.get_product_details store pid (some sid)
          = ((store.lookup pid).getD []).filter (fun d => d.supplier_id == sid)) ∧
      (store.lookup pid = none →
        ∀ osid : Option String, DataStore.get_product_details store pid osid = []) :=
  ⟨gpd_none store pid, fun sid h => gpd_some_ne store pid sid h,
   fun h osid => gpd_lookup_none store pid h osid⟩

/-- Witness for the amended C5 theorem at a concrete store and supplier. -/
theorem get_product_details_filter_witness :
    DataStore.get_product_details detailsStoreOne "P1" (some "SUP-1")
      = ((detailsStoreOne.lookup "P1").getD []).filter
          (fun d => d.supplier_id == "SUP-1") :=
  (get_product_details_filter detailsStoreOne "P1").2.1 "SUP-1" (by decide)

/-- C6: the MCP tool surface get_product_details fails with the typed
not-found error exactly when the possibly supplier-filtered offer list is
empty, in particular when the product has zero offers, and otherwise
returns the non-empty list of offer records. -/
theorem mcp_get_product_details_not_found (store : List (String × List ProductDetails))
    (pid : String) (sid : Option String) :
    (DataStore.get_product_details store pid sid = [] →
        McpServer.get_product_details store pid sid
          = Except.error ("No product details found for product " ++ pid)) ∧
      (DataStore.get_product_details store pid sid ≠ [] →
        McpServer.get_product_details store pid sid
          = Except.ok (DataStore.get_product_details store pid sid)) ∧
      (store.lookup pid = none →
        McpServer.get_product_details store pid sid
          = Except.error ("No product details found for product " ++ pid)) := by
  refine ⟨?_, ?_, ?_⟩
  · intro h
    simp [McpServer.get_product_details, h]
  · intro h
    simp [McpServer.get_product_details, List.isEmpty_iff, h]
  · intro h
    simp [McpServer.get_product_details, gpd_lookup_none store pid h sid]

/-- Witness for the C6 theorem: a product with zero offers yields the typed
not-found failure, and a stocked product yields its offers. -/
theorem mcp_get_product_details_not_found_witness :
    McpServer.get_product_details detailsStoreOne "MISSING" none
        = Except.error ("No product details found for product " ++ "MISSING") ∧
      McpServer.get_product_details detailsStoreOne "P1" none
        = Except.ok (DataStore.get_product_details detailsStoreOne "P1" none) :=
  ⟨(mcp_get_product_details_not_found detailsStoreOne "MISSING" none).1 (by decide),
   (mcp_get_product_details_not_found detailsStoreOne "P1" none).2.1 (by decide)⟩

/-- C7: every budget record returned for a known department satisfies
remaining_budget = monthly_budget - spent_this_month exactly, the value can
be negative, and an unknown department id yields a not-found result rather
than a budget. -/
theorem get_department_budget_remaining :
    (∀ (now : Nat) (ds : List (String × Department)) (did : String)
        (b : DepartmentBudget),
        DataStore.get_department_budget now ds did = some b →
          b.remaining_budget = b.monthly_budget - b.spent_this_month) ∧
      (∀ (now : Nat) (ds : List (String × Department)) (did : String),
        ds.lookup did = none → DataStore.get_department_budget now ds did = none) ∧
      (∃ (now : Nat) (ds : List (String × Department)) (did : String)
          (b : DepartmentBudget),
        DataStore.get_department_budget now ds did = some b ∧
          b.remaining_budget < 0) := by
  refine ⟨?_, ?_, ?_⟩
  · intro now ds did b h
    simp only [DataStore.get_department_budget, DataStore.get_department] at h
    cases hl : ds.lookup did with
    | none => rw [hl] at h; exact absurd h (by simp)
    | some dept =>
        rw [hl] at h
        simp only [Option.some.injEq] at h
        rw [← h]
  · intro now ds did h
    simp [DataStore.get_department_budget, DataStore.get_department, h]
  · exact ⟨0, departmentsStore, "FIN", ⟨"FIN", 1000, 2500, -1500, 0⟩, by decide,
      by decide⟩

/-- Witness for the C7 theorem: the IT department budget at clock 0. -/
theorem get_department_budget_remaining_witness :
    DataStore.get_department_budget 0 departmentsStore "IT" = some itBudget ∧
      itBudget.remaining_budget = itBudget.monthly_budget - itBudget.spent_this_month :=
  ⟨rfl, get_department_budget_remaining.1 0 departmentsStore "IT" itBudget rfl⟩

lemma applyAuditCalls_eq :
    ∀ (calls : List AuditCall) (log : List AuditRecord),
      applyAuditCalls log calls = log ++ calls.map auditRecordOf := by
  intro calls
  induction calls with
  | nil => intro log; simp [applyAuditCalls]
  | cons c cs ih =>
      intro log
      show applyAuditCalls (log ++ [auditRecordOf c]) cs = _
      rw [ih]
      simp

/-- C9: each audit call appends exactly one record, so N calls grow the log
by exactly N records with every previously stored record unchanged in place
and order, and the returned record carries the supplied user_id, action,
details and optional decision_reasoning; appending is the only audit
operation of the data store. -/
theorem create_audit_record_append :
    (∀ (now : Nat) (log : List AuditRecord) (u a : String)
        (d : List (String × String)) (r : Option String),
        (DataStore.create_audit_record now log u a d r).1
            = log ++ [(DataStore.create_audit_record now log u a d r).2] ∧
          (DataStore.create_audit_record now log u a d r).2 = ⟨now, u, a, d, r⟩) ∧
      (∀ (log : List AuditRecord) (calls : List AuditCall),
        (applyAuditCalls log calls).length = log.length + calls.length ∧
          (applyAuditCalls log calls).take log.length = log) := by
  refine ⟨fun now log u a d r => ⟨rfl, rfl⟩, fun log calls => ?_⟩
  rw [applyAuditCalls_eq]
  refine ⟨by simp, ?_⟩
  exact List.take_left log (calls.map auditRecordOf)

lemma numberedFrom_append (s : AgentStep) :
    ∀ (l : List AgentStep) (n : Nat),
      numberedFrom n (l ++ [s])
        = (numberedFrom n l && (s.step_number == n + l.length)) := by
  intro l
  induction l with
  | nil => intro n; simp [numberedFrom]
  | cons a rest ih =>
      intro n
      simp only [List.cons_append, List.append_eq, numberedFrom, ih,
        List.length_cons, Bool.and_assoc]
      have harith : n + 1 + rest.length = n + (rest.length + 1) := by omega
      rw [harith]

lemma addStep_inv (st : RunState) (a r : String) (h : StateInv st) :
    StateInv (addStep st a r) := by
  obtain ⟨h1, h2⟩ := h
  constructor
  · simp [addStep, numberedFrom_append, h1, h2, Nat.add_comm]
  · simp [addStep, h2]

lemma innerBody_inv (env : Env) (st : RunState) (h : StateInv st) :
    StateInv (innerBody env st).1 := by
  by_cases h1 : env.create_thread_fails = true
  · simpa [innerBody, h1] using h
  · by_cases h2 : env.create_message_fails = true
    · simpa [innerBody, h1, h2] using h
    · by_cases h3 : env.run_create_fails = true
      · simpa [innerBody, h1, h2, h3] using addStep_inv _ _ _ h
      · by_cases h4 : env.run_status_failed = true
        · simpa [innerBody, h1, h2, h3, h4] using
            addStep_inv _ _ _ (addStep_inv _ _ _ h)
        · by_cases h5 : env.list_messages_fails = true
          · simpa [innerBody, h1, h2, h3, h4, h5] using
              addStep_inv _ _ _ (addStep_inv _ _ _ h)
          · simpa [innerBody, h1, h2, h3, h4, h5] using
              addStep_inv _ _ _ (addStep_inv _ _ _ (addStep_inv _ _ _ h))

lemma afterAgentCreated_inv (env : Env) (st : RunState) (h : StateInv st) :
    (afterAgentCreated env st).1.total_steps
        = (afterAgentCreated env st).1.steps.length ∧
      numberedFrom 1 (afterAgentCreated env st).1.steps = true := by
  have hr := innerBody_inv env st h
  have hst4 : StateInv (if env.delete_fails then (innerBody env st).1
      else addStep (innerBody env st).1 "Clean Up Agent"
        "Deleted temporary agent instance") := by
    by_cases d : env.delete_fails = true
    · simpa [d] using hr
    · simpa [d] using addStep_inv _ _ _ hr
  unfold afterAgentCreated
  cases hE : (innerBody env st).2 with
  | ok v => simp [hE, mkSuccess, hst4.1]
  | error e => simp [hE, mkFailure, hst4.1]

lemma afterAgentCreated_count (env : Env) (st : RunState) :
    (afterAgentCreated env st).2
      = if (afterAgentCreated env st).1.success then 1 else 2 := by
  unfold afterAgentCreated
  cases hE : (innerBody env st).2 with
  | ok v => simp [hE, mkSuccess]
  | error e => simp [hE, mkFailure]

/-- C8: the result of every run, on the success path and on every failure
path, has total_steps equal to the length of its steps list, and the
step_number fields of consecutive steps count 1, 2, 3, ... with no gap. -/
theorem agent_result_step_numbering (env : Env) (u p : String) :
    (process_purchase_request env u p).1.total_steps
        = (process_purchase_request env u p).1.steps.length ∧
      numberedFrom 1 (process_purchase_request env u p).1.steps = true := by
  by_cases h1 : env.setup_client_fails = true
  · simp [process_purchase_request, h1, mkFailure, numberedFrom]
  · have h1f : env.setup_client_fails = false := Bool.eq_false_iff.mpr h1
    by_cases h2 : env.create_agent_fails = true
    · have hA : StateInv (addStep (addStep ([], 0)
          "Initialize Azure AI Foundry Client"
          "Setting up connection to Azure AI Foundry Agent Service")
          "Create MCP Tool" "Setup native MCP integration for business data access") :=
        addStep_inv _ _ _ (addStep_inv _ _ _ ⟨rfl, rfl⟩)
      simp [process_purchase_request, h1f, h2, mkFailure, hA.1]
    · have h2f : env.create_agent_fails = false := Bool.eq_false_iff.mpr h2
      have hA : StateInv (addStep (addStep (addStep ([], 0)
          "Initialize Azure AI Foundry Client"
          "Setting up connection to Azure AI Foundry Agent Service")
          "Create MCP Tool" "Setup native MCP integration for business data access")
          "Create Azure AI Foundry Agent" "Created agent with native MCP tool support") :=
        addStep_inv _ _ _ (addStep_inv _ _ _ (addStep_inv _ _ _ ⟨rfl, rfl⟩))
      simpa [process_purchase_request, h1f, h2f] using
        afterAgentCreated_inv env _ hA

/-- C1 amended: whenever the agent is created, the context-release
operation delete_agent is invoked at least once, exactly once on a
successful run; on a run that fails after agent creation it is invoked
twice, once by the try/finally cleanup and once more by the emergency
cleanup of the outer exception handler. -/
theorem cleanup_release_count (env : Env) (u p : String)
    (h1 : env.setup_client_fails = false) (h2 : env.create_agent_fails = false) :
    (process_purchase_request env u p).2
      = if (process_purchase_request env u p).1.success then 1 else 2 := by
  simpa [process_purchase_request, h1, h2] using afterAgentCreated_count env
    (addStep (addStep (addStep ([], 0)
      "Initialize Azure AI Foundry Client"
      "Setting up connection to Azure AI Foundry Agent Service")
      "Create MCP Tool" "Setup native MCP integration for business data access")
      "Create Azure AI Foundry Agent" "Created agent with native MCP tool support")

/-- Witness for the amended C1 theorem on the benign environment. -/
theorem cleanup_release_count_witness :
    (process_purchase_request envBase "alice-001" "I need a laptop").2
      = if (process_purchase_request envBase "alice-001"
            "I need a laptop").1.success then 1 else 2 :=
  cleanup_release_count envBase "alice-001" "I need a laptop" rfl rfl

/-- C1 counterexample: on a run whose agent execution fails after the agent
was created, delete_agent is invoked twice, not exactly once as claimed:
once by the try/finally cleanup and once by the emergency cleanup. -/
theorem cleanup_release_count_counterexample :
    envRunFailed.setup_client_fails = false ∧
      envRunFailed.create_agent_fails = false ∧
      (process_purchase_request envRunFailed "alice-001" "I need a laptop").2 = 2 ∧
      (process_purchase_request envRunFailed "alice-001" "I need a laptop").2 ≠ 1 := by
  refine ⟨rfl, rfl, ?_, ?_⟩ <;> decide

lemma errWrap_length (e : String) :
    0 < ("Unexpected error during processing: " ++ e).length := by
  rw [String.length_append]
  have h : 0 < ("Unexpected error during processing: " : String).length := by
    decide
  omega

lemma mkFailure_props (env : Env) (st : RunState) (e : String) :
    (mkFailure env st e).success = false ∧
      ∃ m, (mkFailure env st e).error_message = some m ∧ 0 < m.length :=
  ⟨rfl, ⟨"Unexpected error during processing: " ++ e, rfl, errWrap_length e⟩⟩

lemma innerBody_ok (env : Env) (st : RunState) (h : ¬ innerFails env) :
    (innerBody env st).2 = Except.ok (extractRecommendation env.messages) := by
  simp only [innerFails, not_or, Bool.not_eq_true] at h
  obtain ⟨h1, h2, h3, h4, h5⟩ := h
  simp [innerBody, h1, h2, h3, h4, h5]

lemma innerBody_error (env : Env) (st : RunState) (h : innerFails env) :
    ∃ e, (innerBody env st).2 = Except.error e := by
  by_cases h1 : env.create_thread_fails = true
  · exact ⟨env.create_thread_error, by simp [innerBody, h1]⟩
  · by_cases h2 : env.create_message_fails = true
    · exact ⟨env.create_message_error, by simp [innerBody, h1, h2]⟩
    · by_cases h3 : env.run_create_fails = true
      · exact ⟨env.run_create_error, by simp [innerBody, h1, h2, h3]⟩
      · by_cases h4 : env.run_status_failed = true
        · exact ⟨"Agent run failed: " ++ env.run_last_error,
            by simp [innerBody, h1, h2, h3, h4]⟩
        · by_cases h5 : env.list_messages_fails = true
          · exact ⟨env.list_messages_error, by simp [innerBody, h1, h2, h3, h4, h5]⟩
          · exact absurd h (by simp [innerFails, h1, h2, h3, h4, h5])

lemma afterAgentCreated_error (env : Env) (st : RunState) (h : innerFails env) :
    (afterAgentCreated env st).1.success = false ∧
      ∃ m, (afterAgentCreated env st).1.error_message = some m ∧ 0 < m.length := by
  obtain ⟨e, he⟩ := innerBody_error env st h
  simpa [afterAgentCreated, he] using mkFailure_props env
    (if env.delete_fails then (innerBody env st).1
      else addStep (innerBody env st).1 "Clean Up Agent"
        "Deleted temporary agent instance") e

lemma afterAgentCreated_ok (env : Env) (st : RunState) (h : ¬ innerFails env) :
    (afterAgentCreated env st).1.success = true ∧
      (afterAgentCreated env st).1.error_message = none := by
  simp [afterAgentCreated, innerBody_ok env st h, mkSuccess]

/-- C2 amended: process_purchase_request is a total function returning an
AgentResult for every environment and every input pair; whenever any step
of the run pipeline before cleanup fails, the result has success false and
a populated non-empty error description, and when none fails the result is
a success with no error; a failure of the cleanup deletion alone is
swallowed and leaves the successful outcome unchanged. -/
theorem process_never_raises (env : Env) (u p : String) :
    (runStepFails env →
        (process_purchase_request env u p).1.success = false ∧
          ∃ e, (process_purchase_request env u p).1.error_message = some e ∧
            0 < e.length) ∧
      (¬ runStepFails env →
        (process_purchase_request env u p).1.success = true ∧
          (process_purchase_request env u p).1.error_message = none) := by
  constructor
  · intro h
    by_cases h1 : env.setup_client_fails = true
    · simpa [process_purchase_request, h1] using
        mkFailure_props env ([], 0) env.setup_client_error
    · have h1f : env.setup_client_fails = false := Bool.eq_false_iff.mpr h1
      by_cases h2 : env.create_agent_fails = true
      · simpa [process_purchase_request, h1f, h2] using
          mkFailure_props env _ env.create_agent_error
      · have h2f : env.create_agent_fails = false := Bool.eq_false_iff.mpr h2
        have hinner : innerFails env := by
          rcases h with h | h | h | h | h | h | h
          · exact absurd h h1
          · exact absurd h h2
          · exact Or.inl h
          · exact Or.inr (Or.inl h)
          · exact Or.inr (Or.inr (Or.inl h))
          · exact Or.inr (Or.inr (Or.inr (Or.inl h)))
          · exact Or.inr (Or.inr (Or.inr (Or.inr h)))
        simpa [process_purchase_request, h1f, h2f] using
          afterAgentCreated_error env _ hinner
  · intro h
    simp only [runStepFails, not_or, Bool.not_eq_true] at h
    obtain ⟨h1, h2, h3, h4, h5, h6, h7⟩ := h
    have hni : ¬ innerFails env := by
      simp [innerFails, h3, h4, h5, h6, h7]
    simpa [process_purchase_request, h1, h2] using
      afterAgentCreated_ok env _ hni

/-- Witness for the amended C2 theorem: a run whose thread creation fails
returns a failed result with a non-empty error description. -/
theorem process_never_raises_witness :
    (process_purchase_request envThreadFails "alice-001" "I need a laptop").1.success
        = false ∧
      ∃ e, (process_purchase_request envThreadFails "alice-001"
            "I need a laptop").1.error_message = some e ∧ 0 < e.length :=
  (process_never_raises envThreadFails "alice-001" "I need a laptop").1
    (Or.inr (Or.inr (Or.inl rfl)))

/-- C2 counterexample: when only the cleanup deletion fails — an internal
step failing — the returned result still has success true and no error
description, because cleanup failures are swallowed by design. -/
theorem process_never_raises_counterexample :
    envDeleteFails.delete_fails = true ∧
      (process_purchase_request envDeleteFails "alice-001"
          "I need a laptop").1.success = true ∧
      (process_purchase_request envDeleteFails "alice-001"
          "I need a laptop").1.error_message = none := by
  refine ⟨rfl, ?_, ?_⟩ <;> decide
